import Mathlib

/-!
# Verification of `gen_cmake.py`

A shallow embedding of the single source file `gen_cmake.py`: a tool that
scans the current directory tree for `*.cpp` files (skipping any path with a
`build` segment and files whose leaf name starts with `.`) and regenerates a
`CMakeLists.txt` from a fixed template, or prints a diagnostic when nothing
was found.

The file system is modelled as a finite tree of named entries; string
operations and list traversals mirror the Python code line by line.
-/

namespace GenCmake

/-- A node of the scanned directory tree: a plain file or a directory with an
ordered list of children (the order models the order `os.scandir` yields the
entries of that directory). -/
inductive Entry where
  | file (name : String)
  | dir (name : String) (children : List Entry)

/-- The leaf name of a tree node (`Path.name` of the entry itself). -/
def Entry.name : Entry → String
  | .file n => n
  | .dir n _ => n

/-- The compiled-in project name, `PROJECT = "VulkanSandbox"`. -/
def PROJECT : String := "VulkanSandbox"

/-- The compiled-in C++ standard, `CPP_STD = "20"`. -/
def CPP_STD : String := "20"

/-- Python `s.endswith(t)`: `t`'s characters are a suffix of `s`'s. -/
def strEndsWith (s t : String) : Bool := t.data.isSuffixOf s.data

/-- Python `s.startswith(t)`: `t`'s characters are a prefix of `s`'s. -/
def strStartsWith (s t : String) : Bool := t.data.isPrefixOf s.data

/-- Whether a leaf name matches the glob pattern `*.cpp` used in
`root.rglob("*.cpp")`.  `fnmatch` translates `*.cpp` to the regex
`.*\.cpp` matched against the whole name, i.e. the name ends with `.cpp`
(pathlib's glob does not special-case names starting with a dot, so hidden
names are matched too). -/
def matchCpp (name : String) : Bool := strEndsWith name ".cpp"

/-- The final path component of a root-relative path (`Path.name`); `""` for
the empty path, which never arises for a matched entry. -/
def lastName : List String → String
  | [] => ""
  | [n] => n
  | _ :: rest => lastName rest

mutual

/-- The directories strictly below one entry, in the order pathlib's
recursive-wildcard selector visits them: each directory before the
directories inside it, siblings in listing order.  Each item is the
root-relative path of the directory paired with its children. -/
def entrySubdirs : Entry → List (List String × List Entry)
  | .file _ => []
  | .dir n cs => ([n], cs) :: (listSubdirs cs).map (fun pc => (n :: pc.1, pc.2))

/-- `entrySubdirs` over a directory listing, concatenated in listing order. -/
def listSubdirs : List Entry → List (List String × List Entry)
  | [] => []
  | e :: es => entrySubdirs e ++ listSubdirs es

end

/-- The entries of one directory listing whose leaf name matches `*.cpp`,
as root-relative paths `pre ++ [name]`, in listing order.  pathlib's glob
yields matching paths of any kind, so directories named `*.cpp` match too. -/
def dirMatches (pre : List String) : List Entry → List (List String)
  | [] => []
  | e :: es =>
      if matchCpp e.name then (pre ++ [e.name]) :: dirMatches pre es
      else dirMatches pre es

/-- Concatenate the matches of a list of directories, in order. -/
def globDirs : List (List String × List Entry) → List (List String)
  | [] => []
  | pc :: rest => dirMatches pc.1 pc.2 ++ globDirs rest

/-- `root.rglob("*.cpp")`: for every directory reachable from the root (the
root itself first, then `listSubdirs` order), the matching entries of its
listing; results are root-relative paths. -/
def rglobCpp (tree : List Entry) : List (List String) :=
  dirMatches [] tree ++ globDirs (listSubdirs tree)

/-- The filter of the collection loop.  For a matched path `p`,
`p.parts = rootParts ++ rel` (the parts of the absolute path: the segments
of the resolved root followed by the root-relative segments) and
`p.name = lastName rel`; the loop skips `p` when
`"build" in p.parts or p.name.startswith(".")`. -/
def keep (rootParts rel : List String) : Bool :=
  !(decide ("build" ∈ rootParts ++ rel) || strStartsWith (lastName rel) ".")

/-- `collect_sources()`: every path yielded by `root.rglob("*.cpp")` that the
filter keeps, as `p.relative_to(root)`, in traversal order.  `rootParts` is
`Path(".").resolve().parts`, the segments of the absolute scan root. -/
def collect_sources (rootParts : List String) (tree : List Entry) :
    List (List String) :=
  (rglobCpp tree).filter (keep rootParts)

/-- `"sep".join(strings)` (Python `str.join`). -/
def joinSep (sep : String) : List String → String
  | [] => ""
  | [s] => s
  | s :: rest => s ++ sep ++ joinSep sep rest

/-- `str(s)` for a relative `Path`: its segments joined with `/`. -/
def pathStr (rel : List String) : String := joinSep "/" rel

/-- `make_cmake(sources)`: the f-string template with `src_list` the path
strings joined by `"\n    "`.  Braces that are literal in the rendered text
(from `${{...}}` in the f-string) are written `\x7b`/`\x7d`. -/
def make_cmake (sources : List (List String)) : String :=
  let src_list := joinSep "\n    " (sources.map pathStr)
  "cmake_minimum_required(VERSION 3.20)\nproject(" ++ PROJECT ++
    " LANGUAGES CXX)\n\nset(CMAKE_CXX_STANDARD " ++ CPP_STD ++
    ")\nset(CMAKE_CXX_STANDARD_REQUIRED ON)\nset(CMAKE_EXPORT_COMPILE_COMMANDS ON)\n\n# Список исходников\nset(SRC\n    " ++
    src_list ++
    "\n)\n\nadd_executable(" ++ PROJECT ++
    " $\x7bSRC\x7d)\n\n# Vulkan SDK (если стоит в системе)\nfind_package(Vulkan REQUIRED)\ntarget_include_directories(" ++
    PROJECT ++ " PRIVATE $\x7bVulkan_INCLUDE_DIRS\x7d)\ntarget_link_libraries(" ++
    PROJECT ++ " PRIVATE $\x7bVulkan_LIBRARIES\x7d)\n\n# Добавляем корневые include\ntarget_include_directories(" ++
    PROJECT ++ " PRIVATE\n    $\x7bCMAKE_SOURCE_DIR\x7d\n)\n"

/-- A file-system side effect the script can perform. -/
inductive FsEffect where
  | write (path : String) (content : String)

/-- The observable outcome of one run of the `__main__` block: the
file-system effects performed, the message printed, and the exit code. -/
structure RunResult where
  effects : List FsEffect
  message : String
  exitCode : Nat

/-- The `__main__` block: collect, then either print the not-found
diagnostic, or write `make_cmake` to `CMakeLists.txt` and print the count.
The script never calls `sys.exit`, so a run that does not raise exits 0. -/
def main_run (rootParts : List String) (tree : List Entry) : RunResult :=
  let srcs := collect_sources rootParts tree
  if srcs.isEmpty then
    { effects := [], message := "*.cpp не найдено", exitCode := 0 }
  else
    { effects := [FsEffect.write "CMakeLists.txt" (make_cmake srcs)],
      message := "CMakeLists.txt создан, найдено " ++ toString srcs.length ++
        " cpp файлов.",
      exitCode := 0 }

/-- Apply one effect to a file-system state (a map from path to content). -/
def applyEffect (st : String → Option String) : FsEffect → (String → Option String)
  | .write p c => fun q => if q = p then some c else st q

/-- The file-system state after one run of the script, starting from `st`. -/
def runState (rootParts : List String) (tree : List Entry)
    (st : String → Option String) : String → Option String :=
  ((main_run rootParts tree).effects).foldl applyEffect st

mutual

/-- Every node (file or directory) of one entry's subtree, as root-relative
paths, in plain depth-first order.  Traversal-order-independent description
of the tree, used to characterize `rglobCpp`. -/
def entryNodePaths : Entry → List (List String)
  | .file n => [[n]]
  | .dir n cs => [n] :: (listNodePaths cs).map (n :: ·)

/-- `entryNodePaths` over a directory listing. -/
def listNodePaths : List Entry → List (List String)
  | [] => []
  | e :: es => entryNodePaths e ++ listNodePaths es

end

mutual

/-- Every plain file of one entry's subtree, as root-relative paths.
Files only, unlike `entryNodePaths`; used to state the spec's description
of the collection rule. -/
def entryFilePaths : Entry → List (List String)
  | .file n => [[n]]
  | .dir n cs => (listFilePaths cs).map (n :: ·)

/-- `entryFilePaths` over a directory listing. -/
def listFilePaths : List Entry → List (List String)
  | [] => []
  | e :: es => entryFilePaths e ++ listFilePaths es

end

/-- The collection rule exactly as claim C1 words it (from the spec, not
from the code): the files under the root whose name ends with `.cpp`, such
that no segment of the ROOT-RELATIVE path equals `build`, and whose base
name does not start with `.`. -/
def specCollect (tree : List Entry) : List (List String) :=
  (listFilePaths tree).filter (fun rel =>
    matchCpp (lastName rel) && !(decide ("build" ∈ rel)) &&
      !(strStartsWith (lastName rel) "."))

/-- The lines of the rendered template before the source list. -/
def cmakeHeaderLines : List String :=
  ["cmake_minimum_required(VERSION 3.20)",
   "project(VulkanSandbox LANGUAGES CXX)",
   "",
   "set(CMAKE_CXX_STANDARD 20)",
   "set(CMAKE_CXX_STANDARD_REQUIRED ON)",
   "set(CMAKE_EXPORT_COMPILE_COMMANDS ON)",
   "",
   "# Список исходников",
   "set(SRC"]

/-- The lines of the rendered template after the source list (the final `""`
is the empty line left by the template's trailing newline). -/
def cmakeFooterLines : List String :=
  [")",
   "",
   "add_executable(VulkanSandbox $\x7bSRC\x7d)",
   "",
   "# Vulkan SDK (если стоит в системе)",
   "find_package(Vulkan REQUIRED)",
   "target_include_directories(VulkanSandbox PRIVATE $\x7bVulkan_INCLUDE_DIRS\x7d)",
   "target_link_libraries(VulkanSandbox PRIVATE $\x7bVulkan_LIBRARIES\x7d)",
   "",
   "# Добавляем корневые include",
   "target_include_directories(VulkanSandbox PRIVATE",
   "    $\x7bCMAKE_SOURCE_DIR\x7d",
   ")",
   ""]

/-- The example tree of the spec: `main.cpp`, `build/cached.cpp`,
`.hidden.cpp`, `lib/util.cpp`. -/
def exampleTree : List Entry :=
  [Entry.file "main.cpp",
   Entry.dir "build" [Entry.file "cached.cpp"],
   Entry.file ".hidden.cpp",
   Entry.dir "lib" [Entry.file "util.cpp"]]

/-! ## General lemmas -/

theorem lastName_cons (n : String) {rel : List String} (h : rel ≠ []) :
    lastName (n :: rel) = lastName rel := by
  cases rel with
  | nil => exact absurd rfl h
  | cons a l => rfl

theorem entryNodePaths_ne_nil (e : Entry) : ∀ q ∈ entryNodePaths e, q ≠ [] := by
  intro q hq
  cases e with
  | file n =>
      simp [entryNodePaths] at hq
      simp [hq]
  | dir n cs =>
      simp [entryNodePaths] at hq
      rcases hq with h | ⟨a, _, h⟩
      · simp [h]
      · simp [← h]

theorem listNodePaths_ne_nil (es : List Entry) : ∀ q ∈ listNodePaths es, q ≠ [] := by
  induction es with
  | nil => simp [listNodePaths]
  | cons e es ih =>
      intro q hq
      simp only [listNodePaths, List.mem_append] at hq
      rcases hq with h | h
      · exact entryNodePaths_ne_nil e q h
      · exact ih q h

theorem mem_dirMatches {pre : List String} {es : List Entry} {q : List String} :
    q ∈ dirMatches pre es ↔
      ∃ e ∈ es, matchCpp e.name = true ∧ q = pre ++ [e.name] := by
  induction es with
  | nil => simp [dirMatches]
  | cons e es ih =>
      by_cases h : matchCpp e.name <;>
        simp [dirMatches, h, ih, List.mem_cons]

theorem dirMatches_cons_seg (n : String) (pre : List String) (es : List Entry) :
    dirMatches (n :: pre) es = (dirMatches pre es).map (n :: ·) := by
  induction es with
  | nil => simp [dirMatches]
  | cons e es ih =>
      by_cases h : matchCpp e.name <;> simp [dirMatches, h, ih]

theorem globDirs_append (a b : List (List String × List Entry)) :
    globDirs (a ++ b) = globDirs a ++ globDirs b := by
  induction a with
  | nil => simp [globDirs]
  | cons pc a ih => simp [globDirs, ih]

theorem globDirs_shift (n : String) (subs : List (List String × List Entry)) :
    globDirs (subs.map (fun pc => (n :: pc.1, pc.2))) =
      (globDirs subs).map (n :: ·) := by
  induction subs with
  | nil => simp [globDirs]
  | cons pc subs ih => simp [globDirs, ih, dirMatches_cons_seg]

mutual

theorem mem_entry_glob (e : Entry) (rel : List String) :
    rel ∈ dirMatches [] [e] ++ globDirs (entrySubdirs e) ↔
      rel ∈ entryNodePaths e ∧ matchCpp (lastName rel) = true := by
  cases e with
  | file n =>
      by_cases h : matchCpp n
      · simp [dirMatches, entrySubdirs, globDirs, entryNodePaths, Entry.name, h]
        rintro rfl
        simpa [lastName] using h
      · simp [dirMatches, entrySubdirs, globDirs, entryNodePaths, Entry.name, h]
        rintro rfl
        simp [lastName, h]
  | dir n cs =>
      have ih := fun q => mem_rglobCpp cs q
      have hne := listNodePaths_ne_nil cs
      have lhs_eq : dirMatches [] [Entry.dir n cs] ++
          globDirs (entrySubdirs (Entry.dir n cs)) =
          (if matchCpp n = true then [[n]] else []) ++ (rglobCpp cs).map (n :: ·) := by
        by_cases h : matchCpp n <;>
          simp [dirMatches, Entry.name, entrySubdirs, globDirs, h, rglobCpp,
            dirMatches_cons_seg, globDirs_shift, List.map_append]
      rw [lhs_eq]
      by_cases h : matchCpp n
      · rw [if_pos h]
        simp only [List.mem_append, List.mem_cons, List.not_mem_nil, or_false,
          List.mem_map, entryNodePaths, ih]
        constructor
        · rintro (rfl | ⟨q, ⟨hq, hm⟩, rfl⟩)
          · exact ⟨Or.inl rfl, by simpa [lastName] using h⟩
          · exact ⟨Or.inr ⟨q, hq, rfl⟩, by rwa [lastName_cons n (hne q hq)]⟩
        · rintro ⟨rfl | ⟨q, hq, rfl⟩, hm⟩
          · exact Or.inl rfl
          · rw [lastName_cons n (hne q hq)] at hm
            exact Or.inr ⟨q, ⟨hq, hm⟩, rfl⟩
      · rw [if_neg h]
        simp only [List.nil_append, List.mem_map, entryNodePaths, List.mem_cons, ih]
        constructor
        · rintro ⟨q, ⟨hq, hm⟩, rfl⟩
          exact ⟨Or.inr ⟨q, hq, rfl⟩, by rwa [lastName_cons n (hne q hq)]⟩
        · rintro ⟨rfl | ⟨q, hq, rfl⟩, hm⟩
          · simp [lastName] at hm
            exact absurd hm h
          · rw [lastName_cons n (hne q hq)] at hm
            exact ⟨q, ⟨hq, hm⟩, rfl⟩

theorem mem_rglobCpp (es : List Entry) (rel : List String) :
    rel ∈ rglobCpp es ↔
      rel ∈ listNodePaths es ∧ matchCpp (lastName rel) = true := by
  cases es with
  | nil => simp [rglobCpp, dirMatches, listSubdirs, globDirs, listNodePaths]
  | cons e es =>
      have ih1 := fun q => mem_entry_glob e q
      have ih2 := fun q => mem_rglobCpp es q
      have key : rel ∈ rglobCpp (e :: es) ↔
          rel ∈ dirMatches [] [e] ++ globDirs (entrySubdirs e) ∨
            rel ∈ rglobCpp es := by
        by_cases h : matchCpp e.name <;>
          simp [rglobCpp, dirMatches, listSubdirs, globDirs_append, globDirs, h,
            List.mem_append, List.mem_cons] <;> tauto
      rw [key, ih1 rel, ih2 rel]
      simp only [listNodePaths, List.mem_append]
      tauto

end

/-- Membership in the collected list, characterized without reference to the
traversal: a node of the tree whose leaf name matches `*.cpp`, such that no
segment of the absolute path (root segments followed by relative segments)
equals `build` and the leaf name does not start with `.`. -/
theorem mem_collect_sources {rootParts : List String} {tree : List Entry}
    {rel : List String} :
    rel ∈ collect_sources rootParts tree ↔
      rel ∈ listNodePaths tree ∧ matchCpp (lastName rel) = true ∧
        "build" ∉ rootParts ++ rel ∧ strStartsWith (lastName rel) "." = false := by
  simp only [collect_sources, List.mem_filter, mem_rglobCpp, keep,
    Bool.not_eq_true', Bool.or_eq_false_iff, decide_eq_false_iff_not]
  tauto

theorem joinSep_cons (sep a : String) (l : List String) (h : l ≠ []) :
    joinSep sep (a :: l) = a ++ sep ++ joinSep sep l := by
  cases l with
  | nil => exact absurd rfl h
  | cons b t => rfl

theorem joinSep_append (sep : String) (l1 l2 : List String) (h1 : l1 ≠ [])
    (h2 : l2 ≠ []) :
    joinSep sep (l1 ++ l2) = joinSep sep l1 ++ sep ++ joinSep sep l2 := by
  induction l1 with
  | nil => exact absurd rfl h1
  | cons a t ih =>
      cases t with
      | nil => simp [joinSep_cons sep a l2 h2, joinSep]
      | cons b t2 =>
          rw [List.cons_append, joinSep_cons sep a (b :: t2 ++ l2) (by simp),
            joinSep_cons sep a (b :: t2) (by simp), ih (by simp)]
          simp [String.append_assoc]

theorem joinSep_map_pre (sep pre : String) (l : List String) (h : l ≠ []) :
    joinSep sep (l.map (fun s => pre ++ s)) = pre ++ joinSep (sep ++ pre) l := by
  induction l with
  | nil => exact absurd rfl h
  | cons a t ih =>
      cases t with
      | nil => rfl
      | cons b t2 =>
          rw [List.map_cons, joinSep_cons sep _ _ (by simp),
            joinSep_cons (sep ++ pre) a (b :: t2) (by simp), ih (by simp)]
          simp [String.append_assoc]

set_option maxRecDepth 100000 in
theorem make_cmake_lines {sources : List (List String)} (h : sources ≠ []) :
    make_cmake sources =
      joinSep "\n" (cmakeHeaderLines ++
        (sources.map fun rel => "    " ++ pathStr rel) ++ cmakeFooterLines) := by
  have hM : (sources.map fun rel => "    " ++ pathStr rel) ≠ [] := by
    simpa using h
  have hmp : sources.map pathStr ≠ [] := by simpa using h
  rw [List.append_assoc,
    joinSep_append "\n" cmakeHeaderLines _ (by simp [cmakeHeaderLines])
      (by simp [hM]),
    joinSep_append "\n" _ cmakeFooterLines hM (by simp [cmakeFooterLines]),
    show (sources.map fun rel => "    " ++ pathStr rel) =
        (sources.map pathStr).map (fun s => "    " ++ s) by
      simp [List.map_map, Function.comp],
    joinSep_map_pre "\n" "    " _ hmp,
    show ("\n" ++ "    " : String) = "\n    " from rfl]
  apply String.ext
  simp [make_cmake, PROJECT, CPP_STD, cmakeHeaderLines, cmakeFooterLines, joinSep,
    String.data_append]

/-! ## The claims -/

/-- When nothing is collected, the run performs no effect, prints the
not-found diagnostic and exits 0. -/
theorem main_run_empty {rootParts : List String} {tree : List Entry}
    (h : collect_sources rootParts tree = []) :
    main_run rootParts tree =
      { effects := [], message := "*.cpp не найдено", exitCode := 0 } := by
  simp [main_run, h]

/-- When the collected list is non-empty, the run performs exactly one
write of the rendered template to `CMakeLists.txt` and prints the count. -/
theorem main_run_nonempty {rootParts : List String} {tree : List Entry}
    (h : collect_sources rootParts tree ≠ []) :
    main_run rootParts tree =
      { effects := [FsEffect.write "CMakeLists.txt"
          (make_cmake (collect_sources rootParts tree))],
        message := "CMakeLists.txt создан, найдено " ++
          toString (collect_sources rootParts tree).length ++ " cpp файлов.",
        exitCode := 0 } := by
  simp [main_run, List.isEmpty_iff, h]
/-- C1 (amended): the set of paths returned by `collect_sources` equals
exactly the set of tree nodes (pathlib's glob matches directories named
`*.cpp` as well as files) whose name ends with the `.cpp` suffix, such that
no segment of the ABSOLUTE path — the segments of the resolved scan root
followed by the root-relative segments — equals `"build"`, and whose base
name does not start with `"."`.  The original claim tested only the
root-relative segments; the code tests `p.parts` of the absolute path. -/
theorem C1_collected_set_characterization (rootParts : List String)
    (tree : List Entry) (rel : List String) :
    rel ∈ collect_sources rootParts tree ↔
      rel ∈ listNodePaths tree ∧ matchCpp (lastName rel) = true ∧
        "build" ∉ rootParts ++ rel ∧ strStartsWith (lastName rel) "." = false :=
  mem_collect_sources

/-- C1 as stated is false: with the scan root `/build` (whose own absolute
path has a `build` segment) and a tree holding the single file `main.cpp`,
the spec-side set is `{main.cpp}` but `collect_sources` returns nothing,
because the exclusion tests the segments of the absolute path. -/
theorem C1_counterexample :
    ¬ (∀ rel, rel ∈ collect_sources ["/", "build"] [Entry.file "main.cpp"] ↔
        rel ∈ specCollect [Entry.file "main.cpp"]) := by
  intro hall
  have h1 : ["main.cpp"] ∈ specCollect [Entry.file "main.cpp"] := by decide
  have h2 := (hall ["main.cpp"]).mpr h1
  revert h2
  decide

/-- C2: for every run with a non-empty collected sequence, the content of
`CMakeLists.txt` after the run is exactly the rendered template — the fixed
header lines, one indented line per collected path in collection order, and
the fixed footer lines — whatever the prior state of the file system was
(no merging, full replacement). -/
theorem C2_output_replaced (rootParts : List String) (tree : List Entry)
    (prior : String → Option String) (h : collect_sources rootParts tree ≠ []) :
    runState rootParts tree prior "CMakeLists.txt" =
      some (joinSep "\n" (cmakeHeaderLines ++
        (collect_sources rootParts tree).map (fun rel => "    " ++ pathStr rel) ++
        cmakeFooterLines)) := by
  rw [runState, main_run_nonempty h]
  simp [applyEffect]
  rw [make_cmake_lines h, List.append_assoc]

/-- C3: when the collected sequence is empty the file system is left
completely unchanged (`CMakeLists.txt` is neither created nor modified),
the `*.cpp не найдено` diagnostic is printed, and the process exits 0. -/
theorem C3_empty_run_no_write (rootParts : List String) (tree : List Entry)
    (st : String → Option String) (h : collect_sources rootParts tree = []) :
    runState rootParts tree st = st ∧
      (main_run rootParts tree).message = "*.cpp не найдено" ∧
      (main_run rootParts tree).exitCode = 0 := by
  rw [runState, main_run_empty h]
  exact ⟨rfl, rfl, rfl⟩

/-- C4: running the tool a second time against the unchanged tree leaves
the file system exactly as after the first run — the regeneration is
idempotent, and in particular both runs write byte-identical content. -/
theorem C4_idempotent (rootParts : List String) (tree : List Entry)
    (st : String → Option String) (q : String) :
    runState rootParts tree (runState rootParts tree st) q =
      runState rootParts tree st q := by
  by_cases h : collect_sources rootParts tree = []
  · rw [runState, runState, main_run_empty h]
    rfl
  · rw [runState, runState, main_run_nonempty h]
    by_cases hq : q = "CMakeLists.txt" <;> simp [applyEffect, hq]
/-- C5: for a non-empty source list the rendered descriptor is exactly, in
order: the minimum-version line (3.20), the project declaration
(VulkanSandbox, CXX), the two standard lines (20, REQUIRED), the
compile-commands export flag, the SRC list with one indented path per line,
the add_executable declaration referencing SRC, the find_package(Vulkan
REQUIRED) lookup, the include-directories and link-libraries declarations
for Vulkan, and the root include-path declaration. -/
theorem C5_template_lines (sources : List (List String)) (h : sources ≠ []) :
    make_cmake sources = joinSep "\n"
      (["cmake_minimum_required(VERSION 3.20)",
        "project(VulkanSandbox LANGUAGES CXX)",
        "",
        "set(CMAKE_CXX_STANDARD 20)",
        "set(CMAKE_CXX_STANDARD_REQUIRED ON)",
        "set(CMAKE_EXPORT_COMPILE_COMMANDS ON)",
        "",
        "# Список исходников",
        "set(SRC"] ++
        sources.map (fun rel => "    " ++ pathStr rel) ++
        [")",
         "",
         "add_executable(VulkanSandbox $\x7bSRC\x7d)",
         "",
         "# Vulkan SDK (если стоит в системе)",
         "find_package(Vulkan REQUIRED)",
         "target_include_directories(VulkanSandbox PRIVATE $\x7bVulkan_INCLUDE_DIRS\x7d)",
         "target_link_libraries(VulkanSandbox PRIVATE $\x7bVulkan_LIBRARIES\x7d)",
         "",
         "# Добавляем корневые include",
         "target_include_directories(VulkanSandbox PRIVATE",
         "    $\x7bCMAKE_SOURCE_DIR\x7d",
         ")",
         ""]) :=
  make_cmake_lines h

/-- C6: on the spec's example tree (`main.cpp`, `build/cached.cpp`,
`.hidden.cpp`, `lib/util.cpp`) the collected list is exactly `main.cpp`
followed by `lib/util.cpp`: `build/cached.cpp` is excluded by the directory
rule and `.hidden.cpp` by the hidden-marker rule (for any scan root that
itself has no `build` segment). -/
theorem C6_example_tree (rootParts : List String) (h : "build" ∉ rootParts) :
    collect_sources rootParts exampleTree =
      [["main.cpp"], ["lib", "util.cpp"]] := by
  have hp1 : decide ("build" ∈ rootParts ++ ["main.cpp"]) = false := by
    refine decide_eq_false ?_
    intro hc
    rcases List.mem_append.mp hc with hc | hc
    · exact h hc
    · simp at hc
  have hp4 : decide ("build" ∈ rootParts ++ ["lib", "util.cpp"]) = false := by
    refine decide_eq_false ?_
    intro hc
    rcases List.mem_append.mp hc with hc | hc
    · exact h hc
    · simp at hc
  have k1 : keep rootParts ["main.cpp"] = true := by
    simp only [keep, lastName, hp1,
      show strStartsWith "main.cpp" "." = false from by decide, Bool.or_self,
      Bool.not_false]
  have k2 : keep rootParts [".hidden.cpp"] = false := by
    simp only [keep, lastName,
      show strStartsWith ".hidden.cpp" "." = true from by decide, Bool.or_true,
      Bool.not_true]
  have k3 : keep rootParts ["build", "cached.cpp"] = false := by
    simp only [keep,
      decide_eq_true (List.mem_append_right rootParts (by decide :
        ("build" : String) ∈ ["build", "cached.cpp"])), Bool.true_or,
      Bool.not_true]
  have k4 : keep rootParts ["lib", "util.cpp"] = true := by
    simp only [keep, lastName, hp4,
      show strStartsWith "util.cpp" "." = false from by decide, Bool.or_self,
      Bool.not_false]
  unfold collect_sources
  rw [show rglobCpp exampleTree =
    [["main.cpp"], [".hidden.cpp"], ["build", "cached.cpp"], ["lib", "util.cpp"]]
    from rfl]
  simp [List.filter, k1, k2, k3, k4]

/-- C7: two runs of `collect_sources` over the same unchanged tree agree as
sets of paths even if the traversal presents the tree's nodes in a
different order: any two trees with the same node-path sets collect the
same paths. -/
theorem C7_content_deterministic (rootParts : List String) {t1 t2 : List Entry}
    (h : ∀ q, q ∈ listNodePaths t1 ↔ q ∈ listNodePaths t2) (rel : List String) :
    rel ∈ collect_sources rootParts t1 ↔ rel ∈ collect_sources rootParts t2 := by
  rw [mem_collect_sources, mem_collect_sources, h rel]

/-- C8: if the absolute path of the scan root itself contains a `build`
segment, `collect_sources` returns the empty list regardless of the tree,
because the exclusion test runs over the segments of the full absolute
path. -/
theorem C8_root_under_build (rootParts : List String) (tree : List Entry)
    (h : "build" ∈ rootParts) : collect_sources rootParts tree = [] := by
  unfold collect_sources
  refine List.filter_eq_nil_iff.mpr ?_
  intro rel _
  have hb : decide ("build" ∈ rootParts ++ rel) = true :=
    decide_eq_true (List.mem_append_left rel h)
  simp only [keep, hb, Bool.true_or, Bool.not_true]
  exact Bool.false_ne_true

/-- C9: a matching `.cpp` node whose own leaf name does not start with `.`
is collected even when it lies beneath a hidden directory (some earlier
segment starting with `.`): only the leaf name is tested against the
hidden-file marker. -/
theorem C9_hidden_dirs_not_excluded (rootParts : List String) (tree : List Entry)
    (rel : List String) (h1 : rel ∈ listNodePaths tree)
    (h2 : matchCpp (lastName rel) = true)
    (h3 : "build" ∉ rootParts ++ rel)
    (h4 : strStartsWith (lastName rel) "." = false)
    (_h5 : ∃ seg ∈ rel.dropLast, strStartsWith seg "." = true) :
    rel ∈ collect_sources rootParts tree :=
  mem_collect_sources.mpr ⟨h1, h2, h3, h4⟩

/-- C10: the only file-system effect a run can perform is the single write
of `CMakeLists.txt` (performed only on the non-empty branch); every other
path of the file system is left unchanged by the run. -/
theorem C10_only_write_is_cmakelists (rootParts : List String) (tree : List Entry)
    (st : String → Option String) (q : String) (hq : q ≠ "CMakeLists.txt") :
    runState rootParts tree st q = st q ∧
      ∀ e ∈ (main_run rootParts tree).effects,
        ∃ c, e = FsEffect.write "CMakeLists.txt" c := by
  by_cases h : collect_sources rootParts tree = []
  · rw [runState, main_run_empty h]
    exact ⟨rfl, by simp⟩
  · rw [runState, main_run_nonempty h]
    refine ⟨by simp [applyEffect, hq], ?_⟩
    intro e he
    simp at he
    exact ⟨_, he⟩
set_option maxRecDepth 100000 in
/-- Witness for C2 at a concrete one-file tree and a concrete prior state. -/
theorem C2_witness :
    runState ["/", "home"] [Entry.file "a.cpp"] (fun _ => some "OLD")
      "CMakeLists.txt" =
      some "cmake_minimum_required(VERSION 3.20)\nproject(VulkanSandbox LANGUAGES CXX)\n\nset(CMAKE_CXX_STANDARD 20)\nset(CMAKE_CXX_STANDARD_REQUIRED ON)\nset(CMAKE_EXPORT_COMPILE_COMMANDS ON)\n\n# Список исходников\nset(SRC\n    a.cpp\n)\n\nadd_executable(VulkanSandbox $\x7bSRC\x7d)\n\n# Vulkan SDK (если стоит в системе)\nfind_package(Vulkan REQUIRED)\ntarget_include_directories(VulkanSandbox PRIVATE $\x7bVulkan_INCLUDE_DIRS\x7d)\ntarget_link_libraries(VulkanSandbox PRIVATE $\x7bVulkan_LIBRARIES\x7d)\n\n# Добавляем корневые include\ntarget_include_directories(VulkanSandbox PRIVATE\n    $\x7bCMAKE_SOURCE_DIR\x7d\n)\n" := by
  rw [C2_output_replaced ["/", "home"] [Entry.file "a.cpp"] (fun _ => some "OLD")
    (by decide)]
  rfl

/-- Witness for C3 at the empty tree. -/
theorem C3_witness :
    runState ["/", "home"] [] (fun _ => none) = (fun _ => none) ∧
      (main_run ["/", "home"] []).message = "*.cpp не найдено" ∧
      (main_run ["/", "home"] []).exitCode = 0 :=
  C3_empty_run_no_write ["/", "home"] [] (fun _ => none) (by decide)

set_option maxRecDepth 100000 in
/-- Witness for C5 at a concrete one-path list, fully evaluated. -/
theorem C5_witness :
    make_cmake [["a.cpp"]] =
      "cmake_minimum_required(VERSION 3.20)\nproject(VulkanSandbox LANGUAGES CXX)\n\nset(CMAKE_CXX_STANDARD 20)\nset(CMAKE_CXX_STANDARD_REQUIRED ON)\nset(CMAKE_EXPORT_COMPILE_COMMANDS ON)\n\n# Список исходников\nset(SRC\n    a.cpp\n)\n\nadd_executable(VulkanSandbox $\x7bSRC\x7d)\n\n# Vulkan SDK (если стоит в системе)\nfind_package(Vulkan REQUIRED)\ntarget_include_directories(VulkanSandbox PRIVATE $\x7bVulkan_INCLUDE_DIRS\x7d)\ntarget_link_libraries(VulkanSandbox PRIVATE $\x7bVulkan_LIBRARIES\x7d)\n\n# Добавляем корневые include\ntarget_include_directories(VulkanSandbox PRIVATE\n    $\x7bCMAKE_SOURCE_DIR\x7d\n)\n" := by
  rw [C5_template_lines [["a.cpp"]] (by decide)]
  rfl

/-- Witness for C6 at a concrete scan root. -/
theorem C6_witness :
    collect_sources ["/", "home", "user", "proj"] exampleTree =
      [["main.cpp"], ["lib", "util.cpp"]] :=
  C6_example_tree ["/", "home", "user", "proj"] (by decide)

/-- Witness for C7 at two listings of the same two files in swapped order. -/
theorem C7_witness :
    (["a.cpp"] ∈ collect_sources ["/"] [Entry.file "a.cpp", Entry.file "b.cpp"] ↔
      ["a.cpp"] ∈ collect_sources ["/"] [Entry.file "b.cpp", Entry.file "a.cpp"]) :=
  C7_content_deterministic ["/"]
    (fun q => by
      rw [show listNodePaths [Entry.file "a.cpp", Entry.file "b.cpp"] =
        [["a.cpp"], ["b.cpp"]] from rfl]
      rw [show listNodePaths [Entry.file "b.cpp", Entry.file "a.cpp"] =
        [["b.cpp"], ["a.cpp"]] from rfl]
      simp only [List.mem_cons, List.not_mem_nil, or_false]
      exact or_comm)
    ["a.cpp"]

/-- Witness for C8: a root under a `build` directory collects nothing. -/
theorem C8_witness :
    collect_sources ["/", "home", "build", "proj"] [Entry.file "main.cpp"] = [] :=
  C8_root_under_build ["/", "home", "build", "proj"] [Entry.file "main.cpp"]
    (by decide)

/-- Witness for C9: `.git/gen.cpp` is collected despite the hidden parent. -/
theorem C9_witness :
    [".git", "gen.cpp"] ∈ collect_sources ["/", "home"]
      [Entry.dir ".git" [Entry.file "gen.cpp"]] :=
  C9_hidden_dirs_not_excluded ["/", "home"]
    [Entry.dir ".git" [Entry.file "gen.cpp"]] [".git", "gen.cpp"]
    (by decide) (by decide) (by decide) (by decide) (by decide)

/-- Witness for C10 at a path other than the output file. -/
theorem C10_witness :
    runState ["/"] [Entry.file "a.cpp"] (fun _ => none) "main.cpp" = none ∧
      ∀ e ∈ (main_run ["/"] [Entry.file "a.cpp"]).effects,
        ∃ c, e = FsEffect.write "CMakeLists.txt" c :=
  C10_only_write_is_cmakelists ["/"] [Entry.file "a.cpp"] (fun _ => none)
    "main.cpp" (by decide)

end GenCmake
